import Mathlib

/-!
Verification of the protocol-session client and streaming decoder of this
repository (`src/AIClient.js`: the `AIClient` facade and the `MCPClient`
class).

Modelling conventions:
* JavaScript values flowing through the client are modelled by a `Json`
  inductive; a field access `v.f` returning `undefined` is modelled by
  `Option.none`.
* The runtime's `JSON.parse` is modelled by a small executable parser
  (`jsonParse`) over the JSON subset this client exchanges: objects,
  arrays, strings with the common escapes, integer numbers, booleans and
  null.
* JS `Map` objects are modelled as association lists with the
  `Map.set`/`Map.get` semantics (insertion order, replace-in-place).
* The asynchronous callback machinery of `MCPClient` is modelled as an
  explicit transition system (`ClientState`, `step`, `run`) whose emitted
  `Event`s record promise settlements, `emit` calls, sends and scheduled
  work.
-/

/-! ### JSON / JavaScript values -/

/-- JSON / JavaScript values exchanged by the client. -/
inductive Json where
  | null
  | bool (b : Bool)
  | num (n : Int)
  | str (s : String)
  | arr (xs : List Json)
  | obj (fields : List (String × Json))

mutual

/-- Decidable equality for `Json` (hand-written: the default deriving does
not handle the nested `List Json` occurrences). -/
def Json.decEq : (a b : Json) → Decidable (a = b)
  | .null, .null => .isTrue rfl
  | .bool a, .bool b =>
      if h : a = b then .isTrue (by rw [h]) else .isFalse (by simp [h])
  | .num a, .num b =>
      if h : a = b then .isTrue (by rw [h]) else .isFalse (by simp [h])
  | .str a, .str b =>
      if h : a = b then .isTrue (by rw [h]) else .isFalse (by simp [h])
  | .arr xs, .arr ys =>
      match Json.decEqList xs ys with
      | .isTrue h => .isTrue (by rw [h])
      | .isFalse h => .isFalse (fun e => h (by injection e))
  | .obj xs, .obj ys =>
      match Json.decEqFields xs ys with
      | .isTrue h => .isTrue (by rw [h])
      | .isFalse h => .isFalse (fun e => h (by injection e))
  | .null, .bool _ => .isFalse (fun h => Json.noConfusion h)
  | .null, .num _ => .isFalse (fun h => Json.noConfusion h)
  | .null, .str _ => .isFalse (fun h => Json.noConfusion h)
  | .null, .arr _ => .isFalse (fun h => Json.noConfusion h)
  | .null, .obj _ => .isFalse (fun h => Json.noConfusion h)
  | .bool _, .null => .isFalse (fun h => Json.noConfusion h)
  | .bool _, .num _ => .isFalse (fun h => Json.noConfusion h)
  | .bool _, .str _ => .isFalse (fun h => Json.noConfusion h)
  | .bool _, .arr _ => .isFalse (fun h => Json.noConfusion h)
  | .bool _, .obj _ => .isFalse (fun h => Json.noConfusion h)
  | .num _, .null => .isFalse (fun h => Json.noConfusion h)
  | .num _, .bool _ => .isFalse (fun h => Json.noConfusion h)
  | .num _, .str _ => .isFalse (fun h => Json.noConfusion h)
  | .num _, .arr _ => .isFalse (fun h => Json.noConfusion h)
  | .num _, .obj _ => .isFalse (fun h => Json.noConfusion h)
  | .str _, .null => .isFalse (fun h => Json.noConfusion h)
  | .str _, .bool _ => .isFalse (fun h => Json.noConfusion h)
  | .str _, .num _ => .isFalse (fun h => Json.noConfusion h)
  | .str _, .arr _ => .isFalse (fun h => Json.noConfusion h)
  | .str _, .obj _ => .isFalse (fun h => Json.noConfusion h)
  | .arr _, .null => .isFalse (fun h => Json.noConfusion h)
  | .arr _, .bool _ => .isFalse (fun h => Json.noConfusion h)
  | .arr _, .num _ => .isFalse (fun h => Json.noConfusion h)
  | .arr _, .str _ => .isFalse (fun h => Json.noConfusion h)
  | .arr _, .obj _ => .isFalse (fun h => Json.noConfusion h)
  | .obj _, .null => .isFalse (fun h => Json.noConfusion h)
  | .obj _, .bool _ => .isFalse (fun h => Json.noConfusion h)
  | .obj _, .num _ => .isFalse (fun h => Json.noConfusion h)
  | .obj _, .str _ => .isFalse (fun h => Json.noConfusion h)
  | .obj _, .arr _ => .isFalse (fun h => Json.noConfusion h)

def Json.decEqList : (a b : List Json) → Decidable (a = b)
  | [], [] => .isTrue rfl
  | x :: xs, y :: ys =>
      match Json.decEq x y, Json.decEqList xs ys with
      | .isTrue h1, .isTrue h2 => .isTrue (by rw [h1, h2])
      | .isFalse h1, _ => .isFalse (fun e => h1 (by injection e))
      | _, .isFalse h2 => .isFalse (fun e => h2 (by injection e))
  | [], _ :: _ => .isFalse (fun h => List.noConfusion h)
  | _ :: _, [] => .isFalse (fun h => List.noConfusion h)

def Json.decEqFields : (a b : List (String × Json)) → Decidable (a = b)
  | [], [] => .isTrue rfl
  | (k, v) :: xs, (k', v') :: ys =>
      match String.decEq k k', Json.decEq v v', Json.decEqFields xs ys with
      | .isTrue h0, .isTrue h1, .isTrue h2 => .isTrue (by rw [h0, h1, h2])
      | .isFalse h0, _, _ => .isFalse (fun e => by cases e; exact h0 rfl)
      | _, .isFalse h1, _ => .isFalse (fun e => by cases e; exact h1 rfl)
      | _, _, .isFalse h2 => .isFalse (fun e => by cases e; exact h2 rfl)
  | [], _ :: _ => .isFalse (fun h => List.noConfusion h)
  | _ :: _, [] => .isFalse (fun h => List.noConfusion h)

end

instance : DecidableEq Json := Json.decEq

/-- JS truthiness of a value. (`NaN` and `undefined` are not representable
as `Json`; an `undefined` field access is modelled as `Option.none`, see
`optTruthy`.) -/
def jsTruthy : Json → Bool
  | .null => false
  | .bool b => b
  | .num n => n != 0
  | .str s => s != ""
  | .arr _ => true
  | .obj _ => true

/-- Truthiness of a possibly-undefined value (`none` = JS `undefined`). -/
def optTruthy : Option Json → Bool
  | none => false
  | some v => jsTruthy v

/-- Property access `v.f` on a JS value: `undefined` (`none`) unless `v`
is an object carrying the field.  Objects built by `jsonParse` and by the
modelled code never carry duplicate keys, so first-match lookup agrees
with JS semantics. -/
def getField (v : Json) (f : String) : Option Json :=
  match v with
  | .obj fields => (fields.find? (fun p => decide (p.1 = f))).map (·.2)
  | _ => none

/-- Array index access `v?.[i]` (undefined when out of range or not an
array; the string-indexing corner of JS is not exercised by this client). -/
def getIndex (v : Json) (i : Nat) : Option Json :=
  match v with
  | .arr xs => xs.get? i
  | _ => none

/-! ### JS `Map` model: association lists with `Map.set`/`Map.get`
semantics -/

/-- `Map.set`: replace the value of an existing key in place, otherwise
append the new entry (JS `Map` iteration is in insertion order). -/
def mapSet {κ α : Type} [DecidableEq κ] (m : List (κ × α)) (k : κ) (v : α) :
    List (κ × α) :=
  match m with
  | [] => [(k, v)]
  | p :: ps => if p.1 = k then (k, v) :: ps else p :: mapSet ps k v

/-- `Map.get`. -/
def mapGet {κ α : Type} [DecidableEq κ] (m : List (κ × α)) (k : κ) :
    Option α :=
  match m with
  | [] => none
  | p :: ps => if p.1 = k then some p.2 else mapGet ps k

theorem mapGet_mapSet_self {κ α : Type} [DecidableEq κ]
    (m : List (κ × α)) (k : κ) (v : α) : mapGet (mapSet m k v) k = some v := by
  induction m with
  | nil => simp [mapSet, mapGet]
  | cons p ps ih =>
    by_cases h : p.1 = k
    · simp [mapSet, mapGet, h]
    · simp [mapSet, mapGet, h, ih]

theorem mapGet_mapSet_ne {κ α : Type} [DecidableEq κ]
    (m : List (κ × α)) (k k' : κ) (v : α) (hne : k' ≠ k) :
    mapGet (mapSet m k v) k' = mapGet m k' := by
  have hk : ¬ k = k' := fun e => hne e.symm
  induction m with
  | nil => simp [mapSet, mapGet, hk]
  | cons p ps ih =>
    by_cases h : p.1 = k
    · have hp : ¬ p.1 = k' := by rw [h]; exact hk
      simp [mapSet, mapGet, h, hk, hp]
    · simp [mapSet, mapGet, h, ih]

theorem mapGet_mapSet_isSome {κ α : Type} [DecidableEq κ]
    (m : List (κ × α)) (k k' : κ) (v : α) :
    (mapGet (mapSet m k v) k').isSome ↔ k' = k ∨ (mapGet m k').isSome := by
  by_cases h : k' = k
  · subst h; simp [mapGet_mapSet_self]
  · simp [mapGet_mapSet_ne m k k' v h, h]

example : mapSet (mapSet ([] : List (String × Nat)) "a" 1) "a" 2 = [("a", 2)] := by decide
example : mapGet [("a", 1), ("b", 2)] "b" = some 2 := by decide

/-! ### `JSON.parse` model

An executable parser for the JSON subset this client exchanges (objects,
arrays, strings with the common single-character escapes, integer
numbers, booleans, null).  It is fuelled to keep the recursion structural
(and therefore kernel-evaluable); the fuel bound `2 * length + 2`
over-approximates the recursion depth, which consumes at least one input
character every two calls. -/

def isWsChar (c : Char) : Bool :=
  c = ' ' || c = '\t' || c = '\n' || c = '\r'

def skipWs : List Char → List Char
  | [] => []
  | c :: cs => if isWsChar c then skipWs cs else c :: cs

def escChar (e : Char) : Option Char :=
  if e = '"' ∨ e = '\\' ∨ e = '/' then some e
  else if e = 'n' then some '\n'
  else if e = 't' then some '\t'
  else if e = 'r' then some '\r'
  else if e = 'b' then some (Char.ofNat 8)
  else if e = 'f' then some (Char.ofNat 12)
  else none

/-- Parse the body of a JSON string after the opening quote; returns the
decoded characters and the remaining input after the closing quote. -/
def parseStringBody : List Char → Option (List Char × List Char)
  | [] => none
  | '"' :: rest => some ([], rest)
  | '\\' :: rest =>
    match rest with
    | [] => none
    | e :: rest' =>
      match escChar e with
      | some c => (parseStringBody rest').map (fun p => (c :: p.1, p.2))
      | none => none
  | c :: rest => (parseStringBody rest).map (fun p => (c :: p.1, p.2))

def takeDigits : List Char → List Char × List Char
  | [] => ([], [])
  | c :: cs =>
    if c.isDigit then
      let p := takeDigits cs
      (c :: p.1, p.2)
    else ([], c :: cs)

def digitsToNat (ds : List Char) : Nat :=
  ds.foldl (fun a c => a * 10 + (c.toNat - 48)) 0

def lbrace : Char := Char.ofNat 123

def rbrace : Char := Char.ofNat 125

/-- Parsing mode: a value, the members of an object (accumulated with JS
object duplicate-key semantics), or the items of an array. -/
inductive PMode where
  | value
  | members (acc : List (String × Json))
  | items (acc : List Json)

def parseCore : Nat → PMode → List Char → Option (Json × List Char)
  | 0, _, _ => none
  | fuel + 1, .value, cs =>
    match skipWs cs with
    | [] => none
    | c :: rest =>
      if c = '"' then
        (parseStringBody rest).map (fun p => (.str (String.mk p.1), p.2))
      else if c = lbrace then
        match skipWs rest with
        | r :: rs =>
          if r = rbrace then some (.obj [], rs)
          else parseCore fuel (.members []) (r :: rs)
        | [] => none
      else if c = '[' then
        match skipWs rest with
        | r :: rs =>
          if r = ']' then some (.arr [], rs)
          else parseCore fuel (.items []) (r :: rs)
        | [] => none
      else if c = 't' then
        match rest with
        | 'r' :: 'u' :: 'e' :: rs => some (.bool true, rs)
        | _ => none
      else if c = 'f' then
        match rest with
        | 'a' :: 'l' :: 's' :: 'e' :: rs => some (.bool false, rs)
        | _ => none
      else if c = 'n' then
        match rest with
        | 'u' :: 'l' :: 'l' :: rs => some (.null, rs)
        | _ => none
      else if c = '-' then
        match takeDigits rest with
        | ([], _) => none
        | (ds, rs) => some (.num (-(digitsToNat ds : Int)), rs)
      else if c.isDigit then
        match takeDigits (c :: rest) with
        | (ds, rs) => some (.num (digitsToNat ds), rs)
      else none
  | fuel + 1, .members acc, cs =>
    match skipWs cs with
    | c :: rest =>
      if c = '"' then
        match parseStringBody rest with
        | some (k, r1) =>
          match skipWs r1 with
          | ':' :: r2 =>
            match parseCore fuel .value r2 with
            | some (v, r3) =>
              match skipWs r3 with
              | d :: r4 =>
                if d = ',' then
                  parseCore fuel (.members (mapSet acc (String.mk k) v)) r4
                else if d = rbrace then
                  some (.obj (mapSet acc (String.mk k) v), r4)
                else none
              | [] => none
            | none => none
          | _ => none
        | none => none
      else none
    | [] => none
  | fuel + 1, .items acc, cs =>
    match parseCore fuel .value cs with
    | some (v, r1) =>
      match skipWs r1 with
      | d :: r2 =>
        if d = ',' then parseCore fuel (.items (acc ++ [v])) r2
        else if d = ']' then some (.arr (acc ++ [v]), r2)
        else none
      | [] => none
    | none => none

/-- `JSON.parse` on a line (as a character list): parse one value and
require only trailing whitespace. -/
def jsonParse (cs : List Char) : Option Json :=
  match parseCore (2 * cs.length + 2) .value cs with
  | some (v, rest) => if skipWs rest = [] then some v else none
  | none => none

example :
    jsonParse "\x7b\"response\":\"hi\",\"done\":false\x7d".data =
      some (.obj [("response", .str "hi"), ("done", .bool false)]) := by rfl

example : jsonParse "[DONE]".data = none := by rfl

example : jsonParse "\x7b\"id\":1,\"resu".data = none := by rfl

example :
    jsonParse "\x7b\"id\":1,\"result\":\x7b\x7d\x7d".data =
      some (.obj [("id", .num 1), ("result", .obj [])]) := by rfl

example : jsonParse "null".data = some .null := by rfl

/-! ### Stream decoder: the newline-splitting buffer loop

Both `AIClient.generateStream` (src/AIClient.js:106-143) and the stdio
stdout handler of `MCPClient._connectStdio` (src/AIClient.js:1576-1595)
run the same loop:

  buffer += chunk; lines = buffer.split newline; buffer = lines.pop

`splitBuf input = (complete lines, trailing partial line)` models one
execution of that loop on `buffer ++ chunk`. -/

def splitBuf : List Char → List (List Char) × List Char
  | [] => ([], [])
  | c :: cs =>
    let p := splitBuf cs
    if c = '\n' then ([] :: p.1, p.2)
    else
      match p.1 with
      | [] => ([], c :: p.2)
      | l :: ls => ((c :: l) :: ls, p.2)

/-- Prepend a partial line to the first of a list of lines (helper for the
decomposition of `splitBuf` over `++`). -/
def consHeadB (x : List Char) : List (List Char) → List (List Char)
  | [] => []
  | l :: ls => (x ++ l) :: ls

theorem splitBuf_noNl (cs : List Char) : '\n' ∉ (splitBuf cs).2 := by
  induction cs with
  | nil => simp [splitBuf]
  | cons c cs ih =>
    by_cases hc : c = '\n'
    · simpa [splitBuf, hc] using ih
    · cases h : (splitBuf cs).1 with
      | nil =>
        simp only [splitBuf, if_neg hc, h]
        intro hmem
        rcases List.mem_cons.mp hmem with h1 | h1
        · exact hc h1.symm
        · exact ih h1
      | cons l ls => simpa [splitBuf, hc, h] using ih

theorem splitBuf_of_noNl (cs : List Char) (h : '\n' ∉ cs) :
    splitBuf cs = ([], cs) := by
  induction cs with
  | nil => rfl
  | cons c cs ih =>
    have hc : ¬ c = '\n' := fun e => h (by simp [e])
    have hcs : '\n' ∉ cs := fun hm => h (List.mem_cons_of_mem c hm)
    simp [splitBuf, hc, ih hcs]

theorem splitBuf_append (a b : List Char) :
    splitBuf (a ++ b) =
      ((splitBuf a).1 ++ consHeadB (splitBuf a).2 (splitBuf b).1,
       if (splitBuf b).1 = [] then (splitBuf a).2 ++ (splitBuf b).2
       else (splitBuf b).2) := by
  induction a with
  | nil =>
    cases hb : (splitBuf b).1 with
    | nil =>
      simp only [List.nil_append, splitBuf, consHeadB, hb, if_pos rfl]
      exact Prod.ext hb rfl
    | cons l ls =>
      simp only [List.nil_append, splitBuf, consHeadB, hb, List.nil_append]
      simp only [show (l :: ls ≠ ([] : List (List Char))) from fun h => List.noConfusion h,
        if_neg]
      exact Prod.ext hb rfl
  | cons c a ih =>
    by_cases hc : c = '\n'
    · simp [splitBuf, hc, ih, consHeadB]
    · cases ha : (splitBuf a).1 with
      | nil =>
        cases hb : (splitBuf b).1 with
        | nil =>
          have h1 : (splitBuf (a ++ b)).1 = [] := by
            rw [ih]; simp [ha, hb, consHeadB]
          have h2 : (splitBuf (a ++ b)).2 = (splitBuf a).2 ++ (splitBuf b).2 := by
            rw [ih]; simp [hb]
          simp [splitBuf, hc, h1, h2, ha, hb, consHeadB]
        | cons l ls =>
          have h1 : (splitBuf (a ++ b)).1 = ((splitBuf a).2 ++ l) :: ls := by
            rw [ih]; simp [ha, hb, consHeadB]
          have h2 : (splitBuf (a ++ b)).2 = (splitBuf b).2 := by
            rw [ih]; simp [hb]
          simp [splitBuf, hc, h1, h2, ha, hb, consHeadB]
      | cons l ls =>
        simp [splitBuf, hc, ih, ha, consHeadB]

/-- Composing two feeds of the loop is the same as one feed of the
concatenation: the retained trailing line of the first feed is completed
by the second. -/
theorem splitBuf_comp (x y : List Char) :
    splitBuf (x ++ y) =
      ((splitBuf x).1 ++ (splitBuf ((splitBuf x).2 ++ y)).1,
       (splitBuf ((splitBuf x).2 ++ y)).2) := by
  have h2 := splitBuf_append ((splitBuf x).2) y
  rw [splitBuf_of_noNl _ (splitBuf_noNl x)] at h2
  rw [splitBuf_append x y, h2]
  simp

/-- `line.trim()` is falsy exactly when the line is all whitespace (the
`if (line.trim())` guard of both decode loops). -/
def jsBlank (l : List Char) : Bool := l.all isWsChar

/-- The messages produced by the stdio decode loop from a list of complete
lines: every non-blank line that parses yields exactly one decoded
message; malformed lines are skipped (the stdio handler reports them as
non-fatal `error` events, `generateStream` swallows them — neither throws). -/
def decodeLines (ls : List (List Char)) : List Json :=
  ls.filterMap (fun l => if jsBlank l then none else jsonParse l)

/-- One `data` event of the stdio stdout handler: append the chunk to the
buffer, split, retain the trailing partial line, decode every complete
line. -/
def feedChunk (buf chunk : List Char) : List Json × List Char :=
  ((decodeLines (splitBuf (buf ++ chunk)).1), (splitBuf (buf ++ chunk)).2)

/-- Feeding a whole sequence of chunks, accumulating decoded messages in
order. -/
def feedAll (buf : List Char) : List (List Char) → List Json × List Char
  | [] => ([], buf)
  | c :: cs =>
    ((feedChunk buf c).1 ++ (feedAll (feedChunk buf c).2 cs).1,
     (feedAll (feedChunk buf c).2 cs).2)

theorem decodeLines_append (a b : List (List Char)) :
    decodeLines (a ++ b) = decodeLines a ++ decodeLines b := by
  simp [decodeLines]

theorem feedChunk_comp (buf x y : List Char) :
    feedChunk buf (x ++ y) =
      ((feedChunk buf x).1 ++ (feedChunk (feedChunk buf x).2 y).1,
       (feedChunk (feedChunk buf x).2 y).2) := by
  have hassoc : buf ++ (x ++ y) = (buf ++ x) ++ y := (List.append_assoc buf x y).symm
  simp only [feedChunk, hassoc, splitBuf_comp (buf ++ x) y, decodeLines_append]

theorem feedAll_eq_feedChunk_join (chunks : List (List Char)) (buf : List Char)
    (hbuf : '\n' ∉ buf) : feedAll buf chunks = feedChunk buf chunks.flatten := by
  induction chunks generalizing buf with
  | nil =>
    simp [feedAll, feedChunk, splitBuf_of_noNl buf hbuf, decodeLines]
  | cons c cs ih =>
    have hbuf2 : '\n' ∉ (feedChunk buf c).2 := by
      simpa [feedChunk] using splitBuf_noNl (buf ++ c)
    simp only [feedAll, ih _ hbuf2]
    rw [show (c :: cs).flatten = c ++ cs.flatten from rfl,
      feedChunk_comp buf c cs.flatten]

/-! ### `AIClient._parseStreamChunk` (src/AIClient.js:356-380) -/

inductive ApiFormat where
  | deepseek
  | openai
deriving DecidableEq

/-- The characters of the SSE frame marker "data: ". -/
def dataMarker : List Char := "data: ".data

/-- The characters of the end-of-stream sentinel payload. -/
def doneSentinel : List Char := "[DONE]".data

/-- Optional chaining `v?.f` over a possibly-undefined value. -/
def optChainField (v : Option Json) (f : String) : Option Json :=
  v.bind (fun x => getField x f)

/-- Optional chaining `v?.[i]`. -/
def optChainIndex (v : Option Json) (i : Nat) : Option Json :=
  v.bind (fun x => getIndex x i)

/-- `parsed.choices?.[0]?.delta?.content || ""` of the shape-B branch. -/
def openaiContent (parsed : Json) : Json :=
  match optChainField (optChainIndex (getField parsed "choices") 0) "delta"
      |>.bind (fun d => getField d "content") with
  | some v => if jsTruthy v then v else .str ""
  | none => .str ""

/-- `parsed.choices?.[0]?.finish_reason !== null` of the shape-B branch
(strict inequality: a missing field, being `undefined`, also counts as
"not null"). -/
def openaiDone (parsed : Json) : Bool :=
  match optChainField (optChainIndex (getField parsed "choices") 0) "finish_reason" with
  | some .null => false
  | _ => true

/-- `AIClient._parseStreamChunk`: deepseek mode parses the raw JSON line;
openai mode strips a leading "data: " marker, treats the literal "[DONE]"
payload as a done-marker record, and otherwise normalizes the frame to a
record with `response` and `done` fields (plus the original frame).
`none` stands both for a `JSON.parse` throw and for the `null` returns of
the openai branch — each is skipped by the callers' `if (parsedChunk)`
guard. -/
def parseStreamChunk (fmt : ApiFormat) (line : List Char) : Option Json :=
  match fmt with
  | .deepseek => jsonParse line
  | .openai =>
    if dataMarker.isPrefixOf line then
      let d := line.drop 6
      if d = doneSentinel then some (.obj [("done", .bool true)])
      else
        match jsonParse d with
        | some parsed =>
          some (.obj [("response", openaiContent parsed),
                      ("done", .bool (openaiDone parsed)),
                      ("_original", parsed)])
        | none => none
    else none

/-- The loop-termination test of `generateStream`
(src/AIClient.js:120-124): `parsedChunk.done ||
(apiFormat === "openai" && parsedChunk.choices?.[0]?.finish_reason)`. -/
def chunkDone (fmt : ApiFormat) (v : Json) : Bool :=
  optTruthy (getField v "done") ||
    (decide (fmt = .openai) &&
      optTruthy (optChainField (optChainIndex (getField v "choices") 0) "finish_reason"))

/-- The per-`data`-event line loop of `generateStream`
(src/AIClient.js:114-133): processes the complete lines in order, skips
blank lines, skips lines whose parse fails or yields a falsy chunk, hands
each decoded chunk to `onChunk` (collected here in order), and stops —
discarding the remaining lines of the same event — as soon as a chunk
satisfies the termination test. -/
def genProcessLines (fmt : ApiFormat) : List (List Char) → List Json
  | [] => []
  | l :: ls =>
    if jsBlank l then genProcessLines fmt ls
    else
      match parseStreamChunk fmt l with
      | some v =>
        if jsTruthy v then
          if chunkDone fmt v then [v] else v :: genProcessLines fmt ls
        else genProcessLines fmt ls
      | none => genProcessLines fmt ls

/-- One `data` event of `generateStream`: same buffering as `feedChunk`,
but the line loop can stop early on a terminal chunk. -/
def genFeedChunk (fmt : ApiFormat) (buf chunk : List Char) :
    List Json × List Char :=
  (genProcessLines fmt (splitBuf (buf ++ chunk)).1, (splitBuf (buf ++ chunk)).2)

example :
    parseStreamChunk .deepseek "\x7b\"response\":\"hi\",\"done\":false\x7d".data =
      some (.obj [("response", .str "hi"), ("done", .bool false)]) := by rfl

example : parseStreamChunk .openai "data: [DONE]".data =
    some (.obj [("done", .bool true)]) := by rfl

/-! ### `MCPClient`: session state, correlator, lifecycle -/

inductive Transport where
  | stdio
  | sse
  | websocket
deriving DecidableEq

/-- The configuration surface consumed by `MCPClient`'s constructor
(src/AIClient.js:1110-1129); `none` models an absent option. -/
structure MCPConfig where
  transport : Option Transport := none
  timeout : Option Nat := none
  reconnectDelay : Option Nat := none
  maxReconnectAttempts : Option Nat := none

/-- JS `config.x || default`: both `undefined` and the falsy `0` select
the default. -/
def jsOrNat (o : Option Nat) (d : Nat) : Nat :=
  match o with
  | none => d
  | some n => if n = 0 then d else n

/-- The mutable state of one `MCPClient` instance.  `connection` is the
handle (`Option Unit`: null or some opened-or-failed transport object);
`pending` holds the ids of the pending-request map in insertion order;
`timers` holds the armed timeout timers as (request id, duration). -/
structure ClientState where
  transport : Transport
  timeout : Nat
  reconnectDelay : Nat
  maxReconnectAttempts : Nat
  connection : Option Unit
  isConnected : Bool
  requestId : Int
  pending : List Int
  timers : List (Int × Nat)
  tools : List (Option Json × Json)
  resources : List (Option Json × Json)
  prompts : List (Option Json × Json)
  reconnectAttempts : Nat
  shouldReconnect : Bool
deriving DecidableEq

/-- The constructor `new MCPClient(config)` (src/AIClient.js:1110-1129). -/
def mkClient (config : MCPConfig) : ClientState :=
  { transport := config.transport.getD .stdio
    timeout := jsOrNat config.timeout 30000
    reconnectDelay := jsOrNat config.reconnectDelay 5000
    maxReconnectAttempts := jsOrNat config.maxReconnectAttempts 5
    connection := none
    isConnected := false
    requestId := 0
    pending := []
    timers := []
    tools := []
    resources := []
    prompts := []
    reconnectAttempts := 0
    shouldReconnect := true }

/-- Observable effects of a step: promise settlements (resolve/reject
calls on a pending request's executor), synchronous throws, `emit` calls,
sends, and scheduled work. -/
inductive Event where
  | resolved (id : Int) (v : Json)
  | rejectedProtocol (id : Int) (msg : Json)
  | rejectedTimeout (id : Int)
  | rejectedClosed (id : Int)
  | threw (msg : String)
  | emitted (name : String)
  | errorEmitted (msg : String)
  | reconnecting (n : Nat)
  | scheduledConnect (delay : Nat)
  | sent (id : Int) (method : String)
  | notifGeneric (m : Json)
deriving DecidableEq

/-- An event that settles (resolves or rejects) a pending request. -/
def Event.isSettle : Event → Bool
  | .resolved _ _ => true
  | .rejectedProtocol _ _ => true
  | .rejectedTimeout _ => true
  | .rejectedClosed _ => true
  | _ => false

def Event.isReconnecting : Event → Bool
  | .reconnecting _ => true
  | _ => false

/-- `Map.delete` on the pending-id list. -/
def removeFirst (l : List Int) (i : Int) : List Int :=
  match l with
  | [] => []
  | x :: xs => if x = i then xs else x :: removeFirst xs i

/-- `clearTimeout` (or the firing) of the timer keyed by request id. -/
def removeTimer (ts : List (Int × Nat)) (i : Int) : List (Int × Nat) :=
  match ts with
  | [] => []
  | e :: es => if e.1 = i then es else e :: removeTimer es i

theorem removeTimer_map_fst (ts : List (Int × Nat)) (i : Int) :
    (removeTimer ts i).map Prod.fst = removeFirst (ts.map Prod.fst) i := by
  induction ts with
  | nil => rfl
  | cons e es ih =>
    by_cases h : e.1 = i <;> simp [removeTimer, removeFirst, h, ih]

/-- The error message thrown by `_sendMessage` on the SSE transport
(src/AIClient.js:1618-1623). -/
def sseSendError : String :=
  "SSE transport does not support sending messages. Use WebSocket or stdio for bidirectional communication."

/-- `MCPClient.sendRequest` (src/AIClient.js:1205-1230): throws
NotConnected when not connected; otherwise allocates the next id
(`++this.requestId`), arms the timeout timer, registers the PendingEntry
and pushes the serialized request (on the SSE transport `_sendMessage`
throws inside the executor, rejecting the returned promise, but the entry
and timer have been registered all the same). -/
def sendRequestFn (s : ClientState) (method : String) : ClientState × List Event :=
  if s.isConnected then
    ({ s with requestId := s.requestId + 1
              pending := s.pending ++ [s.requestId + 1]
              timers := s.timers ++ [(s.requestId + 1, s.timeout)] },
     if s.transport = .sse then [.threw sseSendError]
     else [.sent (s.requestId + 1) method])
  else (s, [.threw "Not connected to MCP server"])

/-- The value a matched response resolves with:
`message.result || (empty object)` (src/AIClient.js:1642). -/
def resolveValue (m : Json) : Json :=
  match getField m "result" with
  | some r => if jsTruthy r then r else .obj []
  | none => .obj []

/-- The message a matched error response rejects with:
`message.error.message || "Unknown error"` (src/AIClient.js:1640). -/
def rejectValue (e : Json) : Json :=
  match getField e "message" with
  | some msg => if jsTruthy msg then msg else .str "Unknown error"
  | none => .str "Unknown error"

/-- Settlement of a matched response: `if (message.error)` — truthiness,
not mere presence — selects rejection; otherwise resolution. -/
def settleEvent (i : Int) (m : Json) : Event :=
  match getField m "error" with
  | some e => if jsTruthy e then .rejectedProtocol i (rejectValue e)
              else .resolved i (resolveValue m)
  | none => .resolved i (resolveValue m)

/-- The background `list()` refresh triggered by a `list_changed`
notification: `this.listX().catch(() => ...)` — sends a correlated
request when connected; the NotConnected throw of a disconnected session
is swallowed by the catch. -/
def refreshRequest (s : ClientState) (method : String) : ClientState × List Event :=
  if s.isConnected then sendRequestFn s method else (s, [])

/-- `MCPClient._handleNotification` (src/AIClient.js:1654-1679). -/
def handleNotification (s : ClientState) (m : Json) : ClientState × List Event :=
  match getField m "method" with
  | some (.str name) =>
    if name = "notifications/resources/updated" then
      (s, [.emitted "resource_updated"])
    else if name = "notifications/resources/list_changed" then
      ((refreshRequest s "resources/list").1,
       .emitted "resources_changed" :: (refreshRequest s "resources/list").2)
    else if name = "notifications/tools/list_changed" then
      ((refreshRequest s "tools/list").1,
       .emitted "tools_changed" :: (refreshRequest s "tools/list").2)
    else if name = "notifications/prompts/list_changed" then
      ((refreshRequest s "prompts/list").1,
       .emitted "prompts_changed" :: (refreshRequest s "prompts/list").2)
    else (s, [.notifGeneric m])
  | _ => (s, [.notifGeneric m])

/-- `MCPClient._handleMessage` (src/AIClient.js:1630-1648).  The JS guard
is `if (message.id && this.pendingRequests.has(message.id))`, with an
`else if (!message.id)` notification branch: a message with truthy id
matching a pending entry is settled exactly once, its entry deleted and
its timer cleared; a message with falsy or absent id is dispatched as a
notification; a message with truthy id matching nothing falls through
both branches and is ignored. -/
def handleMessage (s : ClientState) (m : Json) : ClientState × List Event :=
  match getField m "id" with
  | some idv =>
    if jsTruthy idv then
      match idv with
      | .num i =>
        if i ∈ s.pending then
          ({ s with pending := removeFirst s.pending i
                    timers := removeTimer s.timers i },
           [settleEvent i m])
        else (s, [])
      | _ => (s, [])
    else handleNotification s m
  | none => handleNotification s m

/-- `MCPClient._handleReconnect` (src/AIClient.js:1685-1708): while
reconnection is enabled and attempts remain, bump the counter, emit
`reconnecting` with the new attempt number and schedule a `connect()`
after the fixed `reconnectDelay`; otherwise do nothing. -/
def handleReconnect (s : ClientState) : ClientState × List Event :=
  if s.shouldReconnect = true ∧ s.reconnectAttempts < s.maxReconnectAttempts then
    ({ s with reconnectAttempts := s.reconnectAttempts + 1 },
     [.reconnecting (s.reconnectAttempts + 1), .scheduledConnect s.reconnectDelay])
  else (s, [])

/-- `MCPClient.disconnect` (src/AIClient.js:1167-1197): disables
reconnection unconditionally, clears the connected flag, closes and
nulls the connection handle, rejects every pending request with
"Connection closed" and clears the pending map — the armed timers are
not cancelled (the code never calls `clearTimeout` here) — then emits
`disconnected`. -/
def disconnectFn (s : ClientState) : ClientState × List Event :=
  ({ s with shouldReconnect := false
            isConnected := false
            connection := none
            pending := [] },
   s.pending.map Event.rejectedClosed ++ [.emitted "disconnected"])

/-- The WebSocket `close` handler (src/AIClient.js:1534-1539): clears the
connected flag, emits `disconnected` and runs the reconnect logic.  The
connection handle, the pending map and the timers are left untouched. -/
def wsCloseFn (s : ClientState) : ClientState × List Event :=
  ((handleReconnect { s with isConnected := false }).1,
   .emitted "disconnected" :: (handleReconnect { s with isConnected := false }).2)

/-- The stdio child-process `exit` handler (src/AIClient.js:1566-1573):
like the WebSocket close handler, plus an error event for a non-zero exit
code. -/
def stdioExitFn (s : ClientState) (code : Int) : ClientState × List Event :=
  ((handleReconnect { s with isConnected := false }).1,
   .emitted "disconnected" ::
     ((if code ≠ 0 then [.errorEmitted "Server exited"] else []) ++
       (handleReconnect { s with isConnected := false }).2))

/-- The SSE `onerror` handler (src/AIClient.js:1493-1496): emits the
error and runs the reconnect logic; `isConnected` is not modified. -/
def sseErrorFn (s : ClientState) : ClientState × List Event :=
  ((handleReconnect s).1, .errorEmitted "sse error" :: (handleReconnect s).2)

/-- A `connect()` whose transport opened (src/AIClient.js:1135-1153): the
handle was assigned by the transport connector, then the connected flag
is set and the attempt counter reset. -/
def connectOkFn (s : ClientState) : ClientState × List Event :=
  ({ s with connection := some ()
            isConnected := true
            reconnectAttempts := 0 },
   [.emitted "connected"])

/-- A `connect()` whose transport failed to open: every transport
connector assigns `this.connection` before it can fail, so the handle is
non-null; the error is emitted and `connect()` rejects. -/
def connectFailFn (s : ClientState) : ClientState × List Event :=
  ({ s with connection := some () }, [.errorEmitted "connect failed"])

/-- The `setTimeout` callback armed by `sendRequest`
(src/AIClient.js:1220-1223): when the timer for `i` is still armed it
fires, deletes the pending entry and rejects with "Request timeout"; a
timer cleared by `_handleMessage` never fires. -/
def fireTimeoutFn (s : ClientState) (i : Int) : ClientState × List Event :=
  if (s.timers.map Prod.fst).contains i then
    ({ s with pending := removeFirst s.pending i
              timers := removeTimer s.timers i },
     [.rejectedTimeout i])
  else (s, [])

/-- The collection a list operation iterates: `response.tools || []` and
the like followed by `for...of`; a truthy non-array makes `for...of`
throw into the surrounding catch, modelled as `none`. -/
def respCollection (resp : Json) (field : String) : Option (List Json) :=
  match getField resp field with
  | none => some []
  | some (.arr xs) => some xs
  | some v => if jsTruthy v then none else some []

/-- `cache.clear()` followed by `cache.set(key(t), t)` for each listed
descriptor. -/
def buildCache (xs : List Json) (keyField : String) : List (Option Json × Json) :=
  xs.foldl (fun m t => mapSet m (getField t keyField) t) []

/-- The success continuation of `MCPClient.listTools`
(src/AIClient.js:1255-1270): clear the tools cache, then insert every
descriptor of the response keyed by `tool.name`. -/
def applyListTools (s : ClientState) (resp : Json) : Option ClientState :=
  (respCollection resp "tools").map
    (fun xs => { s with tools := buildCache xs "name" })

/-- The success continuation of `MCPClient.listResources`
(src/AIClient.js:1295-1310), keyed by `resource.uri`. -/
def applyListResources (s : ClientState) (resp : Json) : Option ClientState :=
  (respCollection resp "resources").map
    (fun xs => { s with resources := buildCache xs "uri" })

/-- The success continuation of `MCPClient.listPrompts`
(src/AIClient.js:1330-1345), keyed by `prompt.name`. -/
def applyListPrompts (s : ClientState) (resp : Json) : Option ClientState :=
  (respCollection resp "prompts").map
    (fun xs => { s with prompts := buildCache xs "name" })

/-- External and internal occurrences driving one `MCPClient` session. -/
inductive Act where
  | connectOk
  | connectFail
  | wsClose
  | stdioExit (code : Int)
  | sseError
  | recvMsg (m : Json)
  | fireTimeout (i : Int)
  | disconnect
  | sendReq (method : String)
  | toolsListed (resp : Json)
  | resourcesListed (resp : Json)
  | promptsListed (resp : Json)
deriving DecidableEq

def step (s : ClientState) (a : Act) : ClientState × List Event :=
  match a with
  | .connectOk => connectOkFn s
  | .connectFail => connectFailFn s
  | .wsClose => wsCloseFn s
  | .stdioExit code => stdioExitFn s code
  | .sseError => sseErrorFn s
  | .recvMsg m => handleMessage s m
  | .fireTimeout i => fireTimeoutFn s i
  | .disconnect => disconnectFn s
  | .sendReq method => sendRequestFn s method
  | .toolsListed resp => ((applyListTools s resp).getD s, [])
  | .resourcesListed resp => ((applyListResources s resp).getD s, [])
  | .promptsListed resp => ((applyListPrompts s resp).getD s, [])

/-- Run a sequence of occurrences, concatenating the emitted events. -/
def run (s : ClientState) : List Act → ClientState × List Event
  | [] => (s, [])
  | a :: as =>
    ((run (step s a).1 as).1, (step s a).2 ++ (run (step s a).1 as).2)

/-! ### `AIClient` facade: flattened MCP lookup maps -/

/-- The object spread of the refresh helpers: take the descriptor's own
fields and set `serverName` (for a non-object descriptor the spread
contributes no enumerable fields beyond `serverName`; the string corner
of the JS spread is not exercised by descriptor lists). -/
def withServerName (t : Json) (serverName : String) : Json :=
  match t with
  | .obj fs => .obj (mapSet fs "serverName" (.str serverName))
  | _ => .obj [("serverName", .str serverName)]

/-- `AIClient._refreshMcpTools` (src/AIClient.js:649-661) success path:
for each tool of the session's list, `this.mcpTools.set(tool.name,
spread)`.  No deletion ever happens here. -/
def refreshMcpTools (m : List (Option Json × Json)) (serverName : String)
    (tools : List Json) : List (Option Json × Json) :=
  tools.foldl
    (fun acc t => mapSet acc (getField t "name") (withServerName t serverName)) m

/-- `AIClient._refreshMcpResources` (src/AIClient.js:667-679), keyed by
`resource.uri`. -/
def refreshMcpResources (m : List (Option Json × Json)) (serverName : String)
    (resources : List Json) : List (Option Json × Json) :=
  resources.foldl
    (fun acc t => mapSet acc (getField t "uri") (withServerName t serverName)) m

/-- `AIClient._refreshMcpPrompts` (src/AIClient.js:685-697), keyed by
`prompt.name`. -/
def refreshMcpPrompts (m : List (Option Json × Json)) (serverName : String)
    (prompts : List Json) : List (Option Json × Json) :=
  prompts.foldl
    (fun acc t => mapSet acc (getField t "name") (withServerName t serverName)) m

/-! ### Generic fold lemmas for caches and runs -/

theorem mapGet_foldl_set_of_not_mem {β : Type} (key : β → Option Json)
    (val : β → Json) (xs : List β) (m : List (Option Json × Json))
    (k : Option Json) (hk : ∀ t ∈ xs, key t ≠ k) :
    mapGet (xs.foldl (fun acc t => mapSet acc (key t) (val t)) m) k = mapGet m k := by
  induction xs generalizing m with
  | nil => rfl
  | cons t ts ih =>
    have h1 : key t ≠ k := hk t (List.mem_cons_self t ts)
    have h2 : ∀ x ∈ ts, key x ≠ k := fun x hx => hk x (List.mem_cons_of_mem t hx)
    simp only [List.foldl_cons, ih _ h2,
      mapGet_mapSet_ne m (key t) k (val t) (fun e => h1 e.symm)]

theorem mapGet_foldl_set_isSome {β : Type} (key : β → Option Json)
    (val : β → Json) (xs : List β) (m : List (Option Json × Json))
    (k : Option Json) :
    (mapGet (xs.foldl (fun acc t => mapSet acc (key t) (val t)) m) k).isSome ↔
      (∃ t ∈ xs, key t = k) ∨ (mapGet m k).isSome := by
  induction xs generalizing m with
  | nil => simp
  | cons t ts ih =>
    simp only [List.foldl_cons, ih]
    rw [mapGet_mapSet_isSome m (key t) k (val t)]
    constructor
    · rintro (⟨x, hx, he⟩ | (h | h))
      · exact Or.inl ⟨x, List.mem_cons_of_mem t hx, he⟩
      · exact Or.inl ⟨t, List.mem_cons_self t ts, h.symm⟩
      · exact Or.inr h
    · rintro (⟨x, hx, he⟩ | h)
      · rcases List.mem_cons.mp hx with h1 | h1
        · exact Or.inr (Or.inl (by rw [← he, h1]))
        · exact Or.inl ⟨x, h1, he⟩
      · exact Or.inr (Or.inr h)

/-- Generic invariant/event lemma over runs: if every step from an
allowed act preserves `P` and emits no event satisfying `bad`, so does
any run of allowed acts. -/
theorem run_preserve (P : ClientState → Prop) (A : Act → Prop)
    (bad : Event → Bool)
    (hstep : ∀ s a, A a → P s →
      P (step s a).1 ∧ (step s a).2.all (fun e => !bad e) = true) :
    ∀ acts s, (∀ a ∈ acts, A a) → P s →
      P (run s acts).1 ∧ (run s acts).2.all (fun e => !bad e) = true := by
  intro acts
  induction acts with
  | nil => intro s _ hP; exact ⟨hP, rfl⟩
  | cons a as ih =>
    intro s hA hP
    have h1 := hstep s a (hA a (List.mem_cons_self a as)) hP
    have h2 := ih (step s a).1 (fun x hx => hA x (List.mem_cons_of_mem a hx)) h1.1
    refine ⟨h2.1, ?_⟩
    simp only [run, List.all_append, h1.2, h2.2, Bool.and_self]

/-! ### Frame lemmas: which fields each operation can touch -/

theorem sendRequestFn_frame (s : ClientState) (method : String) :
    ∃ r p t, (sendRequestFn s method).1 =
      { s with requestId := r, pending := p, timers := t } := by
  unfold sendRequestFn
  split
  · exact ⟨_, _, _, rfl⟩
  · exact ⟨s.requestId, s.pending, s.timers, rfl⟩

theorem refreshRequest_frame (s : ClientState) (method : String) :
    ∃ r p t, (refreshRequest s method).1 =
      { s with requestId := r, pending := p, timers := t } := by
  unfold refreshRequest
  split
  · exact sendRequestFn_frame s method
  · exact ⟨s.requestId, s.pending, s.timers, rfl⟩

theorem handleNotification_frame (s : ClientState) (m : Json) :
    ∃ r p t, (handleNotification s m).1 =
      { s with requestId := r, pending := p, timers := t } := by
  unfold handleNotification
  split
  · split
    · exact ⟨s.requestId, s.pending, s.timers, rfl⟩
    · split
      · exact refreshRequest_frame s _
      · split
        · exact refreshRequest_frame s _
        · split
          · exact refreshRequest_frame s _
          · exact ⟨s.requestId, s.pending, s.timers, rfl⟩
  · exact ⟨s.requestId, s.pending, s.timers, rfl⟩

theorem handleMessage_frame (s : ClientState) (m : Json) :
    ∃ r p t, (handleMessage s m).1 =
      { s with requestId := r, pending := p, timers := t } := by
  unfold handleMessage
  split
  · split
    · split
      · split
        · exact ⟨s.requestId, _, _, rfl⟩
        · exact ⟨s.requestId, s.pending, s.timers, rfl⟩
      · exact ⟨s.requestId, s.pending, s.timers, rfl⟩
    · exact handleNotification_frame s m
  · exact handleNotification_frame s m

theorem handleReconnect_frame (s : ClientState) :
    ∃ n, (handleReconnect s).1 = { s with reconnectAttempts := n } := by
  unfold handleReconnect
  split
  · exact ⟨_, rfl⟩
  · exact ⟨s.reconnectAttempts, rfl⟩

theorem fireTimeoutFn_frame (s : ClientState) (i : Int) :
    ∃ p t, (fireTimeoutFn s i).1 = { s with pending := p, timers := t } := by
  unfold fireTimeoutFn
  split
  · exact ⟨_, _, rfl⟩
  · exact ⟨s.pending, s.timers, rfl⟩

theorem applyListTools_frame (s : ClientState) (resp : Json) :
    ∃ c, (applyListTools s resp).getD s = { s with tools := c } := by
  unfold applyListTools
  cases respCollection resp "tools" with
  | none => exact ⟨s.tools, rfl⟩
  | some xs => exact ⟨_, rfl⟩

theorem applyListResources_frame (s : ClientState) (resp : Json) :
    ∃ c, (applyListResources s resp).getD s = { s with resources := c } := by
  unfold applyListResources
  cases respCollection resp "resources" with
  | none => exact ⟨s.resources, rfl⟩
  | some xs => exact ⟨_, rfl⟩

theorem applyListPrompts_frame (s : ClientState) (resp : Json) :
    ∃ c, (applyListPrompts s resp).getD s = { s with prompts := c } := by
  unfold applyListPrompts
  cases respCollection resp "prompts" with
  | none => exact ⟨s.prompts, rfl⟩
  | some xs => exact ⟨_, rfl⟩

/-- `_handleReconnect` is a no-op once the attempt counter has reached the
maximum. -/
theorem handleReconnect_of_ge (s : ClientState)
    (h : s.maxReconnectAttempts ≤ s.reconnectAttempts) :
    handleReconnect s = (s, []) := by
  unfold handleReconnect
  rw [if_neg]
  rintro ⟨-, hlt⟩
  exact absurd h (not_le.mpr hlt)

/-- `_handleReconnect` is a no-op once reconnection has been disabled. -/
theorem handleReconnect_of_disabled (s : ClientState)
    (h : s.shouldReconnect = false) :
    handleReconnect s = (s, []) := by
  unfold handleReconnect
  rw [if_neg]
  rintro ⟨ht, -⟩
  rw [h] at ht
  exact Bool.false_ne_true ht

/-! ### Event-shape lemmas -/

theorem settleEvent_isSettle (i : Int) (m : Json) :
    (settleEvent i m).isSettle = true := by
  unfold settleEvent
  split
  · split <;> rfl
  · rfl

theorem settleEvent_not_reconnecting (i : Int) (m : Json) :
    (settleEvent i m).isReconnecting = false := by
  unfold settleEvent
  split
  · split <;> rfl
  · rfl

theorem sendRequestFn_no_reconnecting (s : ClientState) (method : String) :
    (sendRequestFn s method).2.all (fun e => !e.isReconnecting) = true := by
  unfold sendRequestFn
  split
  · split <;> rfl
  · rfl

theorem refreshRequest_no_reconnecting (s : ClientState) (method : String) :
    (refreshRequest s method).2.all (fun e => !e.isReconnecting) = true := by
  unfold refreshRequest
  split
  · exact sendRequestFn_no_reconnecting s method
  · rfl

theorem handleNotification_no_reconnecting (s : ClientState) (m : Json) :
    (handleNotification s m).2.all (fun e => !e.isReconnecting) = true := by
  unfold handleNotification
  split
  · split
    · rfl
    · split
      · simpa [Event.isReconnecting] using refreshRequest_no_reconnecting s _
      · split
        · simpa [Event.isReconnecting] using refreshRequest_no_reconnecting s _
        · split
          · simpa [Event.isReconnecting] using refreshRequest_no_reconnecting s _
          · rfl
  · rfl

theorem handleMessage_no_reconnecting (s : ClientState) (m : Json) :
    (handleMessage s m).2.all (fun e => !e.isReconnecting) = true := by
  unfold handleMessage
  split
  · split
    · split
      · split
        · simp [settleEvent_not_reconnecting]
        · rfl
      · rfl
    · exact handleNotification_no_reconnecting s m
  · exact handleNotification_no_reconnecting s m

/-! ### Pending/timer synchrony lemmas (outside `disconnect`) -/

theorem sendRequestFn_sync (s : ClientState) (method : String)
    (h : s.pending = s.timers.map Prod.fst) :
    (sendRequestFn s method).1.pending =
      (sendRequestFn s method).1.timers.map Prod.fst := by
  unfold sendRequestFn
  split
  · simp [h]
  · exact h

theorem refreshRequest_sync (s : ClientState) (method : String)
    (h : s.pending = s.timers.map Prod.fst) :
    (refreshRequest s method).1.pending =
      (refreshRequest s method).1.timers.map Prod.fst := by
  unfold refreshRequest
  split
  · exact sendRequestFn_sync s method h
  · exact h

theorem handleNotification_sync (s : ClientState) (m : Json)
    (h : s.pending = s.timers.map Prod.fst) :
    (handleNotification s m).1.pending =
      (handleNotification s m).1.timers.map Prod.fst := by
  unfold handleNotification
  split
  · split
    · exact h
    · split
      · exact refreshRequest_sync s _ h
      · split
        · exact refreshRequest_sync s _ h
        · split
          · exact refreshRequest_sync s _ h
          · exact h
  · exact h

theorem handleMessage_sync (s : ClientState) (m : Json)
    (h : s.pending = s.timers.map Prod.fst) :
    (handleMessage s m).1.pending =
      (handleMessage s m).1.timers.map Prod.fst := by
  unfold handleMessage
  split
  · split
    · split
      · split
        · simpa [removeTimer_map_fst] using congrArg (fun l => removeFirst l _) h
        · exact h
      · exact h
    · exact handleNotification_sync s m h
  · exact handleNotification_sync s m h

theorem fireTimeoutFn_sync (s : ClientState) (i : Int)
    (h : s.pending = s.timers.map Prod.fst) :
    (fireTimeoutFn s i).1.pending =
      (fireTimeoutFn s i).1.timers.map Prod.fst := by
  unfold fireTimeoutFn
  split
  · simpa [removeTimer_map_fst] using congrArg (fun l => removeFirst l i) h
  · exact h

/-! ### Bounds on pending ids (for timeout freshness) -/

theorem mem_removeFirst (l : List Int) (i x : Int) (h : x ∈ removeFirst l i) :
    x ∈ l := by
  induction l with
  | nil => simp [removeFirst] at h
  | cons y ys ih =>
    by_cases hy : y = i
    · simp only [removeFirst, if_pos hy] at h
      exact List.mem_cons_of_mem y h
    · simp only [removeFirst, if_neg hy] at h
      rcases List.mem_cons.mp h with h1 | h1
      · exact h1 ▸ List.mem_cons_self y ys
      · exact List.mem_cons_of_mem y (ih h1)

theorem mem_removeTimer (ts : List (Int × Nat)) (i : Int) (e : Int × Nat)
    (h : e ∈ removeTimer ts i) : e ∈ ts := by
  induction ts with
  | nil => simp [removeTimer] at h
  | cons y ys ih =>
    by_cases hy : y.1 = i
    · simp only [removeTimer, if_pos hy] at h
      exact List.mem_cons_of_mem y h
    · simp only [removeTimer, if_neg hy] at h
      rcases List.mem_cons.mp h with h1 | h1
      · exact h1 ▸ List.mem_cons_self y ys
      · exact List.mem_cons_of_mem y (ih h1)

/-- The id counter is non-negative and the ids in the pending map and the
armed timers are positive and bounded by it. -/
def idsBounded (s : ClientState) : Prop :=
  0 ≤ s.requestId ∧
  (∀ i ∈ s.pending, 0 < i ∧ i ≤ s.requestId) ∧
  (∀ e ∈ s.timers, 0 < e.1 ∧ e.1 ≤ s.requestId)

theorem sendRequestFn_bounded (s : ClientState) (method : String)
    (h : idsBounded s) : idsBounded (sendRequestFn s method).1 := by
  obtain ⟨h0, h1, h2⟩ := h
  unfold sendRequestFn
  split
  · refine ⟨by dsimp only; omega, ?_, ?_⟩
    · intro i hi
      dsimp only at hi ⊢
      rcases List.mem_append.mp hi with hm | hm
      · have := h1 i hm
        omega
      · simp only [List.mem_singleton] at hm
        omega
    · intro e he
      dsimp only at he ⊢
      rcases List.mem_append.mp he with hm | hm
      · have := h2 e hm
        omega
      · simp only [List.mem_singleton] at hm
        subst hm
        dsimp only
        omega
  · exact ⟨h0, h1, h2⟩

theorem refreshRequest_bounded (s : ClientState) (method : String)
    (h : idsBounded s) : idsBounded (refreshRequest s method).1 := by
  unfold refreshRequest
  split
  · exact sendRequestFn_bounded s method h
  · exact h

theorem handleNotification_bounded (s : ClientState) (m : Json)
    (h : idsBounded s) : idsBounded (handleNotification s m).1 := by
  unfold handleNotification
  split
  · split
    · exact h
    · split
      · exact refreshRequest_bounded s _ h
      · split
        · exact refreshRequest_bounded s _ h
        · split
          · exact refreshRequest_bounded s _ h
          · exact h
  · exact h

theorem handleMessage_bounded (s : ClientState) (m : Json)
    (h : idsBounded s) : idsBounded (handleMessage s m).1 := by
  unfold handleMessage
  split
  · split
    · split
      · split
        · refine ⟨h.1, ?_, ?_⟩
          · intro j hj
            exact h.2.1 j (mem_removeFirst _ _ _ hj)
          · intro e he
            exact h.2.2 e (mem_removeTimer _ _ _ he)
        · exact h
      · exact h
    · exact handleNotification_bounded s m h
  · exact handleNotification_bounded s m h

theorem fireTimeoutFn_bounded (s : ClientState) (i : Int)
    (h : idsBounded s) : idsBounded (fireTimeoutFn s i).1 := by
  unfold fireTimeoutFn
  split
  · refine ⟨h.1, ?_, ?_⟩
    · intro j hj
      exact h.2.1 j (mem_removeFirst _ _ _ hj)
    · intro e he
      exact h.2.2 e (mem_removeTimer _ _ _ he)
  · exact h

theorem step_bounded (s : ClientState) (a : Act) (h : idsBounded s) :
    idsBounded (step s a).1 := by
  cases a with
  | connectOk => exact h
  | connectFail => exact h
  | wsClose =>
    obtain ⟨n, hn⟩ := handleReconnect_frame { s with isConnected := false }
    simpa [step, wsCloseFn, hn] using h
  | stdioExit code =>
    obtain ⟨n, hn⟩ := handleReconnect_frame { s with isConnected := false }
    simpa [step, stdioExitFn, hn] using h
  | sseError =>
    obtain ⟨n, hn⟩ := handleReconnect_frame s
    simpa [step, sseErrorFn, hn] using h
  | recvMsg m => exact handleMessage_bounded s m h
  | fireTimeout i => exact fireTimeoutFn_bounded s i h
  | disconnect =>
    exact ⟨h.1, by intro j hj; simp [step, disconnectFn] at hj, h.2.2⟩
  | sendReq method => exact sendRequestFn_bounded s method h
  | toolsListed resp =>
    obtain ⟨c, hc⟩ := applyListTools_frame s resp
    simpa [step, hc] using h
  | resourcesListed resp =>
    obtain ⟨c, hc⟩ := applyListResources_frame s resp
    simpa [step, hc] using h
  | promptsListed resp =>
    obtain ⟨c, hc⟩ := applyListPrompts_frame s resp
    simpa [step, hc] using h

theorem run_bounded (acts : List Act) (s : ClientState) (h : idsBounded s) :
    idsBounded (run s acts).1 := by
  have := run_preserve idsBounded (fun _ => True) (fun _ => false)
    (fun s a _ hP => ⟨step_bounded s a hP, by simp⟩) acts s (fun _ _ => trivial) h
  exact this.1

theorem mkClient_bounded (config : MCPConfig) : idsBounded (mkClient config) := by
  refine ⟨le_refl 0, ?_, ?_⟩ <;> intro x hx <;> simp [mkClient] at hx

/-! ### Step lemmas for the reconnection, synchrony and handle
invariants -/

theorem step_ge_noRec (s : ClientState) (a : Act) (ha : a ≠ Act.connectOk)
    (h : s.maxReconnectAttempts ≤ s.reconnectAttempts) :
    (step s a).1.maxReconnectAttempts ≤ (step s a).1.reconnectAttempts ∧
    (step s a).2.all (fun e => !e.isReconnecting) = true := by
  cases a with
  | connectOk => exact absurd rfl ha
  | connectFail => exact ⟨h, rfl⟩
  | wsClose =>
    have hge : ({ s with isConnected := false } : ClientState).maxReconnectAttempts ≤
        ({ s with isConnected := false } : ClientState).reconnectAttempts := h
    simp [step, wsCloseFn, handleReconnect_of_ge _ hge, h, Event.isReconnecting]
  | stdioExit code =>
    have hge : ({ s with isConnected := false } : ClientState).maxReconnectAttempts ≤
        ({ s with isConnected := false } : ClientState).reconnectAttempts := h
    refine ⟨by simp [step, stdioExitFn, handleReconnect_of_ge _ hge, h], ?_⟩
    by_cases hcode : code ≠ 0 <;>
      simp [step, stdioExitFn, handleReconnect_of_ge _ hge, hcode, Event.isReconnecting]
  | sseError =>
    simp [step, sseErrorFn, handleReconnect_of_ge s h, h, Event.isReconnecting]
  | recvMsg m =>
    obtain ⟨r, p, t, hf⟩ := handleMessage_frame s m
    exact ⟨by simpa [step, hf] using h, handleMessage_no_reconnecting s m⟩
  | fireTimeout i =>
    obtain ⟨p, t, hf⟩ := fireTimeoutFn_frame s i
    refine ⟨by simpa [step, hf] using h, ?_⟩
    show ((fireTimeoutFn s i).2.all fun e => !e.isReconnecting) = true
    unfold fireTimeoutFn
    split <;> rfl
  | disconnect =>
    refine ⟨h, ?_⟩
    simp [step, disconnectFn, List.all_append, List.all_map, Event.isReconnecting,
      Function.comp]
  | sendReq method =>
    obtain ⟨r, p, t, hf⟩ := sendRequestFn_frame s method
    exact ⟨by simpa [step, hf] using h, sendRequestFn_no_reconnecting s method⟩
  | toolsListed resp =>
    obtain ⟨c, hc⟩ := applyListTools_frame s resp
    exact ⟨by simpa [step, hc] using h, rfl⟩
  | resourcesListed resp =>
    obtain ⟨c, hc⟩ := applyListResources_frame s resp
    exact ⟨by simpa [step, hc] using h, rfl⟩
  | promptsListed resp =>
    obtain ⟨c, hc⟩ := applyListPrompts_frame s resp
    exact ⟨by simpa [step, hc] using h, rfl⟩

theorem step_disabled_noRec (s : ClientState) (a : Act)
    (h : s.shouldReconnect = false) :
    (step s a).1.shouldReconnect = false ∧
    (step s a).2.all (fun e => !e.isReconnecting) = true := by
  cases a with
  | connectOk => exact ⟨h, rfl⟩
  | connectFail => exact ⟨h, rfl⟩
  | wsClose =>
    have hr := handleReconnect_of_disabled ({ s with isConnected := false }) h
    constructor
    · show (handleReconnect { s with isConnected := false }).1.shouldReconnect = false
      rw [hr]
      exact h
    · show ((Event.emitted "disconnected" ::
          (handleReconnect { s with isConnected := false }).2).all
            fun e => !e.isReconnecting) = true
      rw [hr]
      rfl
  | stdioExit code =>
    have hr := handleReconnect_of_disabled ({ s with isConnected := false }) h
    constructor
    · show (handleReconnect { s with isConnected := false }).1.shouldReconnect = false
      rw [hr]
      exact h
    · show ((Event.emitted "disconnected" ::
          ((if code ≠ 0 then [Event.errorEmitted "Server exited"] else []) ++
            (handleReconnect { s with isConnected := false }).2)).all
              fun e => !e.isReconnecting) = true
      rw [hr]
      by_cases hcode : code ≠ 0 <;> simp [hcode, Event.isReconnecting]
  | sseError =>
    simp [step, sseErrorFn, handleReconnect_of_disabled s h, h, Event.isReconnecting]
  | recvMsg m =>
    obtain ⟨r, p, t, hf⟩ := handleMessage_frame s m
    exact ⟨by simpa [step, hf] using h, handleMessage_no_reconnecting s m⟩
  | fireTimeout i =>
    obtain ⟨p, t, hf⟩ := fireTimeoutFn_frame s i
    refine ⟨by simpa [step, hf] using h, ?_⟩
    show ((fireTimeoutFn s i).2.all fun e => !e.isReconnecting) = true
    unfold fireTimeoutFn
    split <;> rfl
  | disconnect =>
    refine ⟨rfl, ?_⟩
    simp [step, disconnectFn, List.all_append, List.all_map, Event.isReconnecting,
      Function.comp]
  | sendReq method =>
    obtain ⟨r, p, t, hf⟩ := sendRequestFn_frame s method
    exact ⟨by simpa [step, hf] using h, sendRequestFn_no_reconnecting s method⟩
  | toolsListed resp =>
    obtain ⟨c, hc⟩ := applyListTools_frame s resp
    exact ⟨by simpa [step, hc] using h, rfl⟩
  | resourcesListed resp =>
    obtain ⟨c, hc⟩ := applyListResources_frame s resp
    exact ⟨by simpa [step, hc] using h, rfl⟩
  | promptsListed resp =>
    obtain ⟨c, hc⟩ := applyListPrompts_frame s resp
    exact ⟨by simpa [step, hc] using h, rfl⟩

theorem step_sync (s : ClientState) (a : Act) (ha : a ≠ Act.disconnect)
    (h : s.pending = s.timers.map Prod.fst) :
    (step s a).1.pending = (step s a).1.timers.map Prod.fst := by
  cases a with
  | connectOk => exact h
  | connectFail => exact h
  | wsClose =>
    obtain ⟨n, hn⟩ := handleReconnect_frame { s with isConnected := false }
    simpa [step, wsCloseFn, hn] using h
  | stdioExit code =>
    obtain ⟨n, hn⟩ := handleReconnect_frame { s with isConnected := false }
    simpa [step, stdioExitFn, hn] using h
  | sseError =>
    obtain ⟨n, hn⟩ := handleReconnect_frame s
    simpa [step, sseErrorFn, hn] using h
  | recvMsg m => exact handleMessage_sync s m h
  | fireTimeout i => exact fireTimeoutFn_sync s i h
  | disconnect => exact absurd rfl ha
  | sendReq method => exact sendRequestFn_sync s method h
  | toolsListed resp =>
    obtain ⟨c, hc⟩ := applyListTools_frame s resp
    simpa [step, hc] using h
  | resourcesListed resp =>
    obtain ⟨c, hc⟩ := applyListResources_frame s resp
    simpa [step, hc] using h
  | promptsListed resp =>
    obtain ⟨c, hc⟩ := applyListPrompts_frame s resp
    simpa [step, hc] using h

theorem connNull_congr {s' s : ClientState}
    (hc : s'.connection = s.connection) (hi : s'.isConnected = s.isConnected)
    (h : s.connection = none → s.isConnected = false) :
    s'.connection = none → s'.isConnected = false := by
  rw [hc, hi]; exact h

theorem step_connNull (s : ClientState) (a : Act)
    (h : s.connection = none → s.isConnected = false) :
    (step s a).1.connection = none → (step s a).1.isConnected = false := by
  cases a with
  | connectOk => intro hc; simp [step, connectOkFn] at hc
  | connectFail => intro hc; simp [step, connectFailFn] at hc
  | wsClose =>
    obtain ⟨n, hn⟩ := handleReconnect_frame { s with isConnected := false }
    intro hc
    show (handleReconnect { s with isConnected := false }).1.isConnected = false
    rw [hn]
  | stdioExit code =>
    obtain ⟨n, hn⟩ := handleReconnect_frame { s with isConnected := false }
    intro hc
    show (handleReconnect { s with isConnected := false }).1.isConnected = false
    rw [hn]
  | sseError =>
    obtain ⟨n, hn⟩ := handleReconnect_frame s
    exact connNull_congr
      (by show (handleReconnect s).1.connection = s.connection; rw [hn])
      (by show (handleReconnect s).1.isConnected = s.isConnected; rw [hn]) h
  | recvMsg m =>
    obtain ⟨r, p, t, hf⟩ := handleMessage_frame s m
    exact connNull_congr
      (by show (handleMessage s m).1.connection = s.connection; rw [hf])
      (by show (handleMessage s m).1.isConnected = s.isConnected; rw [hf]) h
  | fireTimeout i =>
    obtain ⟨p, t, hf⟩ := fireTimeoutFn_frame s i
    exact connNull_congr
      (by show (fireTimeoutFn s i).1.connection = s.connection; rw [hf])
      (by show (fireTimeoutFn s i).1.isConnected = s.isConnected; rw [hf]) h
  | disconnect => intro hc; rfl
  | sendReq method =>
    obtain ⟨r, p, t, hf⟩ := sendRequestFn_frame s method
    exact connNull_congr
      (by show (sendRequestFn s method).1.connection = s.connection; rw [hf])
      (by show (sendRequestFn s method).1.isConnected = s.isConnected; rw [hf]) h
  | toolsListed resp =>
    obtain ⟨c, hc0⟩ := applyListTools_frame s resp
    exact connNull_congr
      (by show ((applyListTools s resp).getD s).connection = s.connection; rw [hc0])
      (by show ((applyListTools s resp).getD s).isConnected = s.isConnected; rw [hc0]) h
  | resourcesListed resp =>
    obtain ⟨c, hc0⟩ := applyListResources_frame s resp
    exact connNull_congr
      (by show ((applyListResources s resp).getD s).connection = s.connection; rw [hc0])
      (by show ((applyListResources s resp).getD s).isConnected = s.isConnected; rw [hc0]) h
  | promptsListed resp =>
    obtain ⟨c, hc0⟩ := applyListPrompts_frame s resp
    exact connNull_congr
      (by show ((applyListPrompts s resp).getD s).connection = s.connection; rw [hc0])
      (by show ((applyListPrompts s resp).getD s).isConnected = s.isConnected; rw [hc0]) h

/-! ### Further helper lemmas and shared concrete fixtures -/

theorem mapGet_buildCache_isSome (xs : List Json) (keyField : String)
    (k : Option Json) :
    (mapGet (buildCache xs keyField) k).isSome ↔
      ∃ t ∈ xs, getField t keyField = k := by
  have h := mapGet_foldl_set_isSome (fun t => getField t keyField)
    (fun t => t) xs [] k
  simpa [buildCache, mapGet] using h

theorem removeFirst_append_self (l : List Int) (i : Int) (h : i ∉ l) :
    removeFirst (l ++ [i]) i = l := by
  induction l with
  | nil => simp [removeFirst]
  | cons x xs ih =>
    have hx : ¬ x = i := fun e => h (e ▸ List.mem_cons_self x xs)
    have hxs : i ∉ xs := fun hm => h (List.mem_cons_of_mem x hm)
    simp [removeFirst, hx, ih hxs]

/-- `run` over a state reached from a fresh client. -/
def afterActs (cfg : MCPConfig) (acts : List Act) : ClientState :=
  (run (mkClient cfg) acts).1

theorem afterActs_bounded (cfg : MCPConfig) (acts : List Act) :
    idsBounded (afterActs cfg acts) :=
  run_bounded acts (mkClient cfg) (mkClient_bounded cfg)

/-- A websocket-transport configuration used by the concrete scenarios. -/
def wsCfg : MCPConfig := { transport := some Transport.websocket }

/-- A connected websocket session with three requests in flight. -/
def sInFlight3 : ClientState :=
  afterActs wsCfg [.connectOk, .sendReq "a", .sendReq "b", .sendReq "c"]

/-- A connected websocket session with one request in flight. -/
def sInFlight1 : ClientState := afterActs wsCfg [.connectOk, .sendReq "x"]

example : sInFlight3.pending = [1, 2, 3] := by rfl
example : sInFlight1.timers = [(1, 30000)] := by rfl

def toolA : Json := .obj [("name", .str "a")]
def toolB : Json := .obj [("name", .str "b")]
def toolC : Json := .obj [("name", .str "c")]

/-- A `tools/list` response carrying descriptors `a` and `b`. -/
def respAB : Json := .obj [("tools", .arr [toolA, toolB])]

/-- A follow-up `tools/list` response carrying descriptors `b` and `c`. -/
def respBC : Json := .obj [("tools", .arr [toolB, toolC])]

/-- A session whose tools cache holds exactly `a` and `b`. -/
def sToolsAB : ClientState :=
  (applyListTools (mkClient wsCfg) respAB).getD (mkClient wsCfg)

example : sToolsAB.tools =
    [(some (Json.str "a"), toolA), (some (Json.str "b"), toolB)] := by rfl

/-! ### Claim theorems -/

theorem handleReconnect_no_settle (s : ClientState) :
    ((handleReconnect s).2.all fun e => !e.isSettle) = true := by
  unfold handleReconnect
  split <;> rfl

theorem handleReconnect_pending (s : ClientState) :
    (handleReconnect s).1.pending = s.pending := by
  obtain ⟨n, hn⟩ := handleReconnect_frame s
  rw [hn]

/-- **C1** (corrected).  Outstanding requests are rejected with a
ConnectionClosed error only by an explicit `disconnect()`: `disconnect`
rejects every pending request, in order, with "Connection closed" and
clears the pending map; the websocket `close` handler and the stdio
`exit` handler leave the pending map untouched and settle nothing — a
request in flight across a transport close stays pending until its own
timeout fires. -/
theorem mcpClient_pending_rejection_on_close (s : ClientState) (code : Int) :
    (disconnectFn s).2 =
      s.pending.map Event.rejectedClosed ++ [Event.emitted "disconnected"] ∧
    (disconnectFn s).1.pending = [] ∧
    (wsCloseFn s).1.pending = s.pending ∧
    ((wsCloseFn s).2.all fun e => !e.isSettle) = true ∧
    (stdioExitFn s code).1.pending = s.pending ∧
    ((stdioExitFn s code).2.all fun e => !e.isSettle) = true := by
  refine ⟨rfl, rfl, handleReconnect_pending _, ?_, handleReconnect_pending _, ?_⟩
  · show ((Event.emitted "disconnected" ::
        (handleReconnect { s with isConnected := false }).2).all
          fun e => !e.isSettle) = true
    rw [List.all_cons, handleReconnect_no_settle]
    rfl
  · show ((Event.emitted "disconnected" ::
        ((if code ≠ 0 then [Event.errorEmitted "Server exited"] else []) ++
          (handleReconnect { s with isConnected := false }).2)).all
            fun e => !e.isSettle) = true
    rw [List.all_cons, List.all_append, handleReconnect_no_settle]
    by_cases hcode : code ≠ 0 <;> simp [hcode, Event.isSettle]

/-- **C1** counterexample to the claim as stated: the websocket transport
reports `close` while 3 requests are in flight; the handler emits
`disconnected` and schedules reconnection attempt 1 after the configured
delay, but rejects none of the 3 pending futures — all 3 ids stay in the
pending map. -/
theorem mcpClient_wsClose_leaves_pending_cex :
    sInFlight3.pending = [1, 2, 3] ∧
    (wsCloseFn sInFlight3).2 =
      [Event.emitted "disconnected", Event.reconnecting 1,
       Event.scheduledConnect 5000] ∧
    (wsCloseFn sInFlight3).1.pending = [1, 2, 3] :=
  ⟨rfl, rfl, rfl⟩

/-- **C2** (confirmed).  A successful list operation replaces the whole
per-category cache: afterwards the cache holds exactly the descriptors of
the response (keyed by `name` for tools and prompts, by `uri` for
resources); concretely, a cache holding `a` and `b` refreshed by the
response `[b, c]` holds exactly `b` and `c` — `a` is gone. -/
theorem mcpClient_list_replaces_cache :
    (∀ (s : ClientState) (resp : Json) (xs : List Json),
      respCollection resp "tools" = some xs →
      applyListTools s resp = some { s with tools := buildCache xs "name" } ∧
      ∀ k, (mapGet (buildCache xs "name") k).isSome ↔
        ∃ t ∈ xs, getField t "name" = k) ∧
    (∀ (s : ClientState) (resp : Json) (xs : List Json),
      respCollection resp "resources" = some xs →
      applyListResources s resp =
        some { s with resources := buildCache xs "uri" } ∧
      ∀ k, (mapGet (buildCache xs "uri") k).isSome ↔
        ∃ t ∈ xs, getField t "uri" = k) ∧
    (∀ (s : ClientState) (resp : Json) (xs : List Json),
      respCollection resp "prompts" = some xs →
      applyListPrompts s resp = some { s with prompts := buildCache xs "name" } ∧
      ∀ k, (mapGet (buildCache xs "name") k).isSome ↔
        ∃ t ∈ xs, getField t "name" = k) ∧
    sToolsAB.tools = [(some (Json.str "a"), toolA), (some (Json.str "b"), toolB)] ∧
    applyListTools sToolsAB respBC =
      some { sToolsAB with
               tools := [(some (Json.str "b"), toolB),
                         (some (Json.str "c"), toolC)] } := by
  refine ⟨?_, ?_, ?_, rfl, rfl⟩
  · intro s resp xs h
    refine ⟨?_, fun k => mapGet_buildCache_isSome xs "name" k⟩
    unfold applyListTools
    rw [h]
    rfl
  · intro s resp xs h
    refine ⟨?_, fun k => mapGet_buildCache_isSome xs "uri" k⟩
    unfold applyListResources
    rw [h]
    rfl
  · intro s resp xs h
    refine ⟨?_, fun k => mapGet_buildCache_isSome xs "name" k⟩
    unfold applyListPrompts
    rw [h]
    rfl

/-- **C2** witness: a list response `[a, b]` on a fresh session rebuilds
the tools cache to exactly `a` and `b`. -/
theorem mcpClient_list_replaces_cache_witness :
    applyListTools (mkClient wsCfg) respAB =
      some { mkClient wsCfg with tools := buildCache [toolA, toolB] "name" } :=
  (mcpClient_list_replaces_cache.1 (mkClient wsCfg) respAB [toolA, toolB] rfl).1

/-- **C3** (corrected).  Routing of incoming decoded messages: a message
whose (truthy, numeric) id matches a pending request settles that request
exactly once — the entry is removed and its timer cleared — but the
settlement is governed by JS *truthiness*, not by field *presence*: a
truthy `error` field rejects with `error.message || "Unknown error"`,
while an absent-or-falsy `error` field resolves with
`result || (empty object)` (so a falsy `result` resolves with the empty
object, not with the result field itself).  A message carrying a truthy
id that matches no pending entry is ignored: no throw, no state change,
no settlement. -/
theorem mcpClient_handleMessage_routing :
    (∀ (s : ClientState) (m : Json) (i : Int),
      getField m "id" = some (.num i) → i ≠ 0 → i ∈ s.pending →
      handleMessage s m =
        ({ s with pending := removeFirst s.pending i,
                  timers := removeTimer s.timers i },
         [settleEvent i m]) ∧
      (optTruthy (getField m "error") = true →
        ∃ e, getField m "error" = some e ∧
          settleEvent i m = .rejectedProtocol i (rejectValue e)) ∧
      (optTruthy (getField m "error") = false →
        settleEvent i m = .resolved i (resolveValue m))) ∧
    (∀ (s : ClientState) (m : Json) (idv : Json),
      getField m "id" = some idv → jsTruthy idv = true →
      (∀ i : Int, idv = Json.num i → i ∉ s.pending) →
      handleMessage s m = (s, [])) := by
  constructor
  · intro s m i h1 h2 h3
    have ht : jsTruthy (Json.num i) = true := by
      simp [jsTruthy]
      exact h2
    refine ⟨?_, ?_, ?_⟩
    · unfold handleMessage
      rw [h1]
      simp only [ht, if_true]
      rw [if_pos h3]
    · intro herr
      cases hgf : getField m "error" with
      | none => rw [hgf] at herr; simp [optTruthy] at herr
      | some e =>
        rw [hgf] at herr
        have he : jsTruthy e = true := herr
        refine ⟨e, rfl, ?_⟩
        unfold settleEvent
        rw [hgf]
        simp [he]
    · intro herr
      unfold settleEvent
      cases hgf : getField m "error" with
      | none => rfl
      | some e =>
        rw [hgf] at herr
        have he : jsTruthy e = false := herr
        simp [he]
  · intro s m idv h1 h2 h3
    unfold handleMessage
    rw [h1]
    simp only [h2, if_true]
    cases idv with
    | num i =>
      simp only [h3 i rfl, if_false]
    | null => rfl
    | bool b => rfl
    | str v => rfl
    | arr xs => rfl
    | obj fs => rfl

/-- **C3** counterexample to the claim as stated: the response
`(jsonrpc 2.0, id 1, error null, result 0)` carries an `error` field
(present but `null`) and a `result` field (`0`); the claim demands a
rejection carrying the provider's error — the code instead *resolves*
the request, and with the empty object rather than the message's
`result` field, because both branches test truthiness. -/
theorem mcpClient_handleMessage_errorNull_cex :
    getField (Json.obj [("jsonrpc", .str "2.0"), ("id", .num 1),
        ("error", .null), ("result", .num 0)]) "error" = some Json.null ∧
    getField (Json.obj [("jsonrpc", .str "2.0"), ("id", .num 1),
        ("error", .null), ("result", .num 0)]) "result" = some (Json.num 0) ∧
    sInFlight1.pending = [1] ∧
    handleMessage sInFlight1 (Json.obj [("jsonrpc", .str "2.0"), ("id", .num 1),
        ("error", .null), ("result", .num 0)]) =
      ({ sInFlight1 with pending := [], timers := [] },
       [Event.resolved 1 (Json.obj [])]) :=
  ⟨rfl, rfl, rfl, rfl⟩

/-- **C3** witness: a normal response with id 1 and a truthy result on a
session with request 1 in flight settles it exactly once. -/
theorem mcpClient_handleMessage_routing_witness :
    handleMessage sInFlight1 (Json.obj [("id", .num 1), ("result", .str "ok")]) =
      ({ sInFlight1 with pending := removeFirst sInFlight1.pending 1,
                         timers := removeTimer sInFlight1.timers 1 },
       [settleEvent 1 (Json.obj [("id", .num 1), ("result", .str "ok")])]) :=
  (mcpClient_handleMessage_routing.1 sInFlight1
    (Json.obj [("id", .num 1), ("result", .str "ok")]) 1 rfl
    (by decide) (by decide)).1

/-- **C4** (confirmed).  The constructor default timeout is 30000; and on
any reachable connected session state, `sendRequest` registers the fresh
id together with a timer of the configured duration, and if no response
arrives (the timer is still armed) the timeout callback fires, rejects
exactly with a Timeout error and removes the id from the pending map. -/
theorem mcpClient_request_timeout :
    (mkClient {}).timeout = 30000 ∧
    ∀ (cfg : MCPConfig) (acts : List Act) (method : String),
      (afterActs cfg acts).isConnected = true →
      (sendRequestFn (afterActs cfg acts) method).1.pending =
        (afterActs cfg acts).pending ++ [(afterActs cfg acts).requestId + 1] ∧
      (sendRequestFn (afterActs cfg acts) method).1.timers =
        (afterActs cfg acts).timers ++
          [((afterActs cfg acts).requestId + 1, (afterActs cfg acts).timeout)] ∧
      (fireTimeoutFn (sendRequestFn (afterActs cfg acts) method).1
          ((afterActs cfg acts).requestId + 1)).2 =
        [Event.rejectedTimeout ((afterActs cfg acts).requestId + 1)] ∧
      ((afterActs cfg acts).requestId + 1) ∉
        (fireTimeoutFn (sendRequestFn (afterActs cfg acts) method).1
          ((afterActs cfg acts).requestId + 1)).1.pending := by
  constructor
  · rfl
  · intro cfg acts method hconn
    set S := afterActs cfg acts with hS
    have hb := afterActs_bounded cfg acts
    rw [← hS] at hb
    have hfreshP : (S.requestId + 1) ∉ S.pending := by
      intro hmem
      have := hb.2.1 _ hmem
      omega
    have hsend : (sendRequestFn S method).1 =
        { S with requestId := S.requestId + 1,
                 pending := S.pending ++ [S.requestId + 1],
                 timers := S.timers ++ [(S.requestId + 1, S.timeout)] } := by
      unfold sendRequestFn
      rw [if_pos hconn]
    have hcontains :
        (((sendRequestFn S method).1.timers).map Prod.fst).contains
          (S.requestId + 1) = true := by
      rw [hsend]
      show ((S.timers ++ [(S.requestId + 1, S.timeout)]).map Prod.fst).contains
        (S.requestId + 1) = true
      simp
    refine ⟨by rw [hsend], by rw [hsend], ?_, ?_⟩
    · unfold fireTimeoutFn
      rw [if_pos hcontains]
    · unfold fireTimeoutFn
      rw [if_pos hcontains]
      show (S.requestId + 1) ∉
        removeFirst (sendRequestFn S method).1.pending (S.requestId + 1)
      rw [hsend]
      show (S.requestId + 1) ∉
        removeFirst (S.pending ++ [S.requestId + 1]) (S.requestId + 1)
      rw [removeFirst_append_self _ _ hfreshP]
      exact hfreshP

/-- **C4** witness: on a freshly connected websocket session,
`sendRequest` arms the timer for id 1 with the default 30000 window, and
firing it rejects with Timeout and leaves the pending map without id 1. -/
theorem mcpClient_request_timeout_witness :
    (fireTimeoutFn (sendRequestFn (afterActs wsCfg [Act.connectOk]) "x").1
        ((afterActs wsCfg [Act.connectOk]).requestId + 1)).2 =
      [Event.rejectedTimeout ((afterActs wsCfg [Act.connectOk]).requestId + 1)] ∧
    ((afterActs wsCfg [Act.connectOk]).requestId + 1) ∉
      (fireTimeoutFn (sendRequestFn (afterActs wsCfg [Act.connectOk]) "x").1
        ((afterActs wsCfg [Act.connectOk]).requestId + 1)).1.pending :=
  ⟨(mcpClient_request_timeout.2 wsCfg [Act.connectOk] "x" rfl).2.2.1,
   (mcpClient_request_timeout.2 wsCfg [Act.connectOk] "x" rfl).2.2.2⟩

/-- The partial first chunk of the spec's buffering scenario. -/
def chunkPartA : List Char := "\x7b\"id\":1,\"resu".data

/-- The completing second chunk (with the terminating newline). -/
def chunkPartB : List Char := "lt\":\x7b\x7d\x7d\n".data

/-- **C5** (corrected; this theorem is the stdio-decode-loop part, which
holds in full).  Chunk boundaries are invisible to the newline-splitting
buffer loop: feeding any chunk sequence equals feeding the concatenation
in one piece, so every complete valid JSON line is decoded exactly once,
in order, malformed and blank lines are skipped without any exception
(the decoder is a total function), and a partial trailing line is
retained and decoded exactly once when its completing newline arrives.
Concretely: the first chunk of `(id 1, resu` decodes nothing and stays
buffered; after `lt":(empty))` plus newline arrives, exactly the one
message `(id 1, result (empty))` is decoded; and a valid line interleaved
between malformed ones is decoded exactly once. -/
theorem streamDecoder_buffering :
    (∀ chunks : List (List Char), feedAll [] chunks = feedChunk [] chunks.flatten) ∧
    feedChunk [] chunkPartA = ([], chunkPartA) ∧
    feedAll [] [chunkPartA, chunkPartB] =
      ([Json.obj [("id", Json.num 1), ("result", Json.obj [])]], []) ∧
    feedChunk [] "bad\n\x7b\"id\":2\x7d\nalso bad\n".data =
      ([Json.obj [("id", Json.num 2)]], []) := by
  refine ⟨?_, rfl, rfl, rfl⟩
  intro chunks
  exact feedAll_eq_feedChunk_join chunks [] (by simp)

/-- **C5** counterexample to the claim as stated for the `generateStream`
instance of the loop: a chunk carrying the two complete valid JSON lines
`(done true)` and `(id 1)` yields two decoded messages in the stdio loop
but only one in `generateStream` — after the first chunk satisfies the
termination test the remaining lines of the same data event are
discarded (`resolve(); return;` inside the line loop). -/
theorem generateStream_truncates_after_done_cex :
    decodeLines (splitBuf "\x7b\"done\":true\x7d\n\x7b\"id\":1\x7d\n".data).1 =
      [Json.obj [("done", Json.bool true)], Json.obj [("id", Json.num 1)]] ∧
    genProcessLines ApiFormat.deepseek
        (splitBuf "\x7b\"done\":true\x7d\n\x7b\"id\":1\x7d\n".data).1 =
      [Json.obj [("done", Json.bool true)]] :=
  ⟨rfl, rfl⟩

/-- The shape-A chunk line of the round-trip scenario. -/
def lineShapeA : List Char := "\x7b\"response\":\"hi\",\"done\":false\x7d".data

/-- The shape-B SSE frame of the round-trip scenario. -/
def lineShapeB : List Char :=
  "data: \x7b\"choices\":[\x7b\"delta\":\x7b\"content\":\"hi\"\x7d,\"finish_reason\":null\x7d]\x7d".data

/-- The parsed payload of `lineShapeB` (kept by the normalizer as the
original frame). -/
def parsedShapeB : Json :=
  .obj [("choices", .arr [.obj [("delta", .obj [("content", .str "hi")]),
                                ("finish_reason", .null)]])]

/-- **C6** (confirmed).  Both backend shapes normalize to the same
(text, done) record: the shape-A line decodes to response "hi" / done
false; the shape-B frame decodes to the same response "hi" / done false
(carrying the original frame alongside); and the literal `data: [DONE]`
frame decodes to done true with no text field at all. -/
theorem parseStreamChunk_normalizes :
    parseStreamChunk .deepseek lineShapeA =
      some (.obj [("response", .str "hi"), ("done", .bool false)]) ∧
    parseStreamChunk .openai lineShapeB =
      some (.obj [("response", .str "hi"), ("done", .bool false),
                  ("_original", parsedShapeB)]) ∧
    getField (.obj [("response", .str "hi"), ("done", .bool false)]) "response" =
      getField (.obj [("response", .str "hi"), ("done", .bool false),
        ("_original", parsedShapeB)]) "response" ∧
    getField (.obj [("response", .str "hi"), ("done", .bool false)]) "done" =
      getField (.obj [("response", .str "hi"), ("done", .bool false),
        ("_original", parsedShapeB)]) "done" ∧
    getField (.obj [("response", .str "hi"), ("done", .bool false),
        ("_original", parsedShapeB)]) "response" = some (.str "hi") ∧
    getField (.obj [("response", .str "hi"), ("done", .bool false),
        ("_original", parsedShapeB)]) "done" = some (.bool false) ∧
    parseStreamChunk .openai "data: [DONE]".data =
      some (.obj [("done", .bool true)]) ∧
    getField (.obj [("done", .bool true)]) "done" = some (.bool true) ∧
    getField (.obj [("done", .bool true)]) "response" = none :=
  ⟨rfl, rfl, rfl, rfl, rfl, rfl, rfl, rfl, rfl⟩

/-- **C7** (confirmed).  Automatic reconnection is bounded and
terminates: (1) `_handleReconnect` schedules a retry — emitting
`reconnecting` with the incremented attempt number and then waiting the
fixed configured delay — precisely while `shouldReconnect` holds and the
attempt counter is below the maximum, and otherwise does nothing;
(2) once the counter has reached the maximum, no run of transport
events, messages, timeouts or further failures (anything except an
explicit successful `connect()`, which is the caller's restart) ever
emits a `reconnecting` event again; (3) an explicit `disconnect()`
disables reconnection unconditionally — afterwards no run whatsoever,
successful reconnects included, ever emits `reconnecting` again. -/
theorem mcpClient_reconnect_bounded :
    (∀ s : ClientState,
      (s.shouldReconnect = true ∧ s.reconnectAttempts < s.maxReconnectAttempts →
        handleReconnect s =
          ({ s with reconnectAttempts := s.reconnectAttempts + 1 },
           [Event.reconnecting (s.reconnectAttempts + 1),
            Event.scheduledConnect s.reconnectDelay])) ∧
      (¬ (s.shouldReconnect = true ∧
            s.reconnectAttempts < s.maxReconnectAttempts) →
        handleReconnect s = (s, []))) ∧
    (∀ (s : ClientState) (acts : List Act),
      s.maxReconnectAttempts ≤ s.reconnectAttempts →
      (∀ a ∈ acts, a ≠ Act.connectOk) →
      ((run s acts).2.all fun e => !e.isReconnecting) = true) ∧
    (∀ (s : ClientState) (acts : List Act),
      ((run (disconnectFn s).1 acts).2.all fun e => !e.isReconnecting) = true) := by
  refine ⟨?_, ?_, ?_⟩
  · intro s
    constructor
    · intro hcond
      unfold handleReconnect
      rw [if_pos hcond]
    · intro hcond
      unfold handleReconnect
      rw [if_neg hcond]
  · intro s acts hge hacts
    exact (run_preserve
      (fun st => st.maxReconnectAttempts ≤ st.reconnectAttempts)
      (fun a => a ≠ Act.connectOk) Event.isReconnecting
      (fun st a ha hP => step_ge_noRec st a ha hP) acts s hacts hge).2
  · intro s acts
    exact (run_preserve (fun st => st.shouldReconnect = false)
      (fun _ => True) Event.isReconnecting
      (fun st a _ hP => step_disabled_noRec st a hP) acts (disconnectFn s).1
      (fun _ _ => trivial) rfl).2

/-- A websocket session whose reconnection attempts are exhausted. -/
def sExhausted : ClientState :=
  { mkClient wsCfg with reconnectAttempts := 5 }

/-- **C7** witness: on a session with the attempt counter at the maximum
(5 of 5), a close, an SSE error, a message and another close emit no
`reconnecting` event; and after an explicit `disconnect()` a later close
does not reconnect either. -/
theorem mcpClient_reconnect_bounded_witness :
    ((run sExhausted [Act.wsClose, Act.sseError, Act.recvMsg Json.null,
        Act.wsClose]).2.all fun e => !e.isReconnecting) = true ∧
    ((run (disconnectFn (mkClient wsCfg)).1
        [Act.connectOk, Act.wsClose]).2.all fun e => !e.isReconnecting) = true :=
  ⟨mcpClient_reconnect_bounded.2.1 sExhausted
      [Act.wsClose, Act.sseError, Act.recvMsg Json.null, Act.wsClose]
      (by decide) (by decide),
   mcpClient_reconnect_bounded.2.2 (mkClient wsCfg) [Act.connectOk, Act.wsClose]⟩

/-- **C8** (corrected).  PendingEntry/timer pairing: outside of
`disconnect()`, the pending map and the armed timers are created and
destroyed together — along any `disconnect`-free run the pending ids
coincide with the armed timer ids (responses and error responses clear
both, the timeout firing consumes both).  `disconnect()` breaks the
pairing: it empties the pending map while leaving every armed timer
running. -/
theorem mcpClient_timer_entry_pairing :
    (∀ (s : ClientState) (acts : List Act),
      s.pending = s.timers.map Prod.fst →
      (∀ a ∈ acts, a ≠ Act.disconnect) →
      (run s acts).1.pending = (run s acts).1.timers.map Prod.fst) ∧
    (∀ s : ClientState,
      (disconnectFn s).1.pending = [] ∧ (disconnectFn s).1.timers = s.timers) := by
  constructor
  · intro s acts hsync hacts
    exact (run_preserve (fun st => st.pending = st.timers.map Prod.fst)
      (fun a => a ≠ Act.disconnect) (fun _ => false)
      (fun st a ha hP => ⟨step_sync st a ha hP, by simp⟩) acts s hacts hsync).1
  · intro s
    exact ⟨rfl, rfl⟩

/-- **C8** witness: along the `disconnect`-free run connect, send,
response for id 1, the pending ids always equal the armed timer ids. -/
theorem mcpClient_timer_entry_pairing_witness :
    (run (mkClient wsCfg) [Act.connectOk, Act.sendReq "x",
        Act.recvMsg (Json.obj [("id", Json.num 1), ("result", Json.obj [])])]).1.pending =
      (run (mkClient wsCfg) [Act.connectOk, Act.sendReq "x",
        Act.recvMsg (Json.obj [("id", Json.num 1),
          ("result", Json.obj [])])]).1.timers.map Prod.fst :=
  mcpClient_timer_entry_pairing.1 (mkClient wsCfg)
    [Act.connectOk, Act.sendReq "x",
     Act.recvMsg (Json.obj [("id", Json.num 1), ("result", Json.obj [])])]
    rfl (by decide)

/-- **C8** counterexample to the claim as stated: connect, send one
request, then `disconnect()` — the pending entry is gone (it was
forcibly rejected) but its 30000-unit timer is still armed:
`disconnect` never calls `clearTimeout`, so a timer outlives its
entry. -/
theorem mcpClient_disconnect_dangling_timer_cex :
    (afterActs wsCfg [Act.connectOk, Act.sendReq "x", Act.disconnect]).pending = [] ∧
    (afterActs wsCfg [Act.connectOk, Act.sendReq "x", Act.disconnect]).timers =
      [(1, 30000)] :=
  ⟨rfl, rfl⟩

/-- **C9** (corrected).  One direction of the claimed invariant holds at
every reachable state: whenever the connection handle is null the
connected flag is false.  (The converse is refuted by the transport
close handlers, see the counterexample.) -/
theorem mcpClient_null_handle_not_connected (cfg : MCPConfig) (acts : List Act)
    (h : (run (mkClient cfg) acts).1.connection = none) :
    (run (mkClient cfg) acts).1.isConnected = false :=
  (run_preserve (fun st => st.connection = none → st.isConnected = false)
    (fun _ => True) (fun _ => false)
    (fun st a _ hP => ⟨step_connNull st a hP, by simp⟩) acts (mkClient cfg)
    (fun _ _ => trivial) (fun _ => rfl)).1 h

/-- **C9** witness: a fresh client has a null handle, and the theorem
yields that it is not connected. -/
theorem mcpClient_null_handle_not_connected_witness :
    (run (mkClient {}) []).1.isConnected = false :=
  mcpClient_null_handle_not_connected {} [] rfl

/-- **C9** counterexample to the claim as stated: after a websocket
`close` event the flag is false but the handle is still the old socket —
the close handler flips `isConnected` without nulling `connection`, so
"connection is null whenever isConnected is false" fails. -/
theorem mcpClient_closed_keeps_handle_cex :
    (afterActs wsCfg [Act.connectOk, Act.wsClose]).isConnected = false ∧
    (afterActs wsCfg [Act.connectOk, Act.wsClose]).connection = some () :=
  ⟨rfl, rfl⟩

/-- **C10** (confirmed).  The facade's flattened lookup maps only ever
gain or overwrite entries: each refresh helper sets every descriptor of
the session's list (tagged with the owning server), and any previously
registered entry whose key is absent from the new list is left unchanged
— stale descriptors survive at the facade level, unlike the per-session
wholesale replacement. -/
theorem aiClient_refresh_keeps_stale :
    (∀ (m : List (Option Json × Json)) (serverName : String)
        (tools : List Json) (k : Option Json),
      ((∀ t ∈ tools, getField t "name" ≠ k) →
        mapGet (refreshMcpTools m serverName tools) k = mapGet m k) ∧
      ((mapGet m k).isSome →
        (mapGet (refreshMcpTools m serverName tools) k).isSome) ∧
      (∀ t ∈ tools,
        (mapGet (refreshMcpTools m serverName tools) (getField t "name")).isSome)) ∧
    (∀ (m : List (Option Json × Json)) (serverName : String)
        (resources : List Json) (k : Option Json),
      ((∀ t ∈ resources, getField t "uri" ≠ k) →
        mapGet (refreshMcpResources m serverName resources) k = mapGet m k) ∧
      ((mapGet m k).isSome →
        (mapGet (refreshMcpResources m serverName resources) k).isSome) ∧
      (∀ t ∈ resources,
        (mapGet (refreshMcpResources m serverName resources)
          (getField t "uri")).isSome)) ∧
    (∀ (m : List (Option Json × Json)) (serverName : String)
        (prompts : List Json) (k : Option Json),
      ((∀ t ∈ prompts, getField t "name" ≠ k) →
        mapGet (refreshMcpPrompts m serverName prompts) k = mapGet m k) ∧
      ((mapGet m k).isSome →
        (mapGet (refreshMcpPrompts m serverName prompts) k).isSome) ∧
      (∀ t ∈ prompts,
        (mapGet (refreshMcpPrompts m serverName prompts)
          (getField t "name")).isSome)) := by
  refine ⟨?_, ?_, ?_⟩
  · intro m serverName tools k
    refine ⟨?_, ?_, ?_⟩
    · intro hk
      exact mapGet_foldl_set_of_not_mem (fun t => getField t "name")
        (fun t => withServerName t serverName) tools m k hk
    · intro hs
      exact (mapGet_foldl_set_isSome (fun t => getField t "name")
        (fun t => withServerName t serverName) tools m k).mpr (Or.inr hs)
    · intro t ht
      exact (mapGet_foldl_set_isSome (fun t => getField t "name")
        (fun t => withServerName t serverName) tools m
        (getField t "name")).mpr (Or.inl ⟨t, ht, rfl⟩)
  · intro m serverName resources k
    refine ⟨?_, ?_, ?_⟩
    · intro hk
      exact mapGet_foldl_set_of_not_mem (fun t => getField t "uri")
        (fun t => withServerName t serverName) resources m k hk
    · intro hs
      exact (mapGet_foldl_set_isSome (fun t => getField t "uri")
        (fun t => withServerName t serverName) resources m k).mpr (Or.inr hs)
    · intro t ht
      exact (mapGet_foldl_set_isSome (fun t => getField t "uri")
        (fun t => withServerName t serverName) resources m
        (getField t "uri")).mpr (Or.inl ⟨t, ht, rfl⟩)
  · intro m serverName prompts k
    refine ⟨?_, ?_, ?_⟩
    · intro hk
      exact mapGet_foldl_set_of_not_mem (fun t => getField t "name")
        (fun t => withServerName t serverName) prompts m k hk
    · intro hs
      exact (mapGet_foldl_set_isSome (fun t => getField t "name")
        (fun t => withServerName t serverName) prompts m k).mpr (Or.inr hs)
    · intro t ht
      exact (mapGet_foldl_set_isSome (fun t => getField t "name")
        (fun t => withServerName t serverName) prompts m
        (getField t "name")).mpr (Or.inl ⟨t, ht, rfl⟩)

/-- **C10** witness: a facade map holding descriptor `a` from one server
refreshed with a list containing only `b` still answers `a` unchanged —
the stale entry survives. -/
theorem aiClient_refresh_keeps_stale_witness :
    mapGet (refreshMcpTools [(some (Json.str "a"), toolA)] "srv" [toolB])
        (some (Json.str "a")) =
      mapGet [(some (Json.str "a"), toolA)] (some (Json.str "a")) :=
  (aiClient_refresh_keeps_stale.1 [(some (Json.str "a"), toolA)] "srv" [toolB]
    (some (Json.str "a"))).1 (by decide)
